import Mathlib

/-!
Shallow embedding of `src/core/src/components/segment/segment.tsx`
(the `ion-segment` selection state machine) and proofs about it.

Modelling conventions:
* DOM pixel coordinates are exact integers (`Int`); the scroll ratio, a JS
  float in the source, is an exact rational (`Rat`); `Math.round` is
  `jsRound`.
* A Stencil mutable `@Prop` assignment to `this.value` goes through
  `setValue`, which fires the `valueChanged` watcher exactly when the new
  value differs from the old one, as Stencil's runtime `setValue` does.
  Watcher re-entrancy is bounded by a `fuel` argument; `none` is returned
  on fuel exhaustion and on JS `TypeError`s (property access on
  `undefined`), so `some` results are exactly the non-throwing runs.
* DOM elements are referenced by `ElRef`: a position in the segment's
  ordered `ion-segment-button` list, the `ion-segment` host itself, or
  some other element.  JS `undefined`/`null` element variables are
  `Option ElRef`.
* Side effects (event emission, segment-view `setContent` writes, the
  indicator animation write task, scroll requests, class toggles) are
  collected in a list of `Action`s.
-/

namespace Segment

-- Batteries marks the `Rat` arithmetic irreducible, which blocks
-- `decide`-style evaluation of the scroll-ratio arithmetic at concrete
-- inputs; restore the default reducibility locally.
attribute [local semireducible] Rat.mul Rat.add Rat.sub Rat.inv

/-- `SegmentValue` is an opaque comparable identifier. -/
abbrev SegmentValue := String

/-- A DOMRect as returned by `getBoundingClientRect`. -/
structure Rect where
  left : Int
  top : Int
  width : Int
  height : Int
deriving Repr, DecidableEq

/-- An `ion-segment-button` child, as read by the segment: its `value`,
`disabled` and `contentId` props, its own bounding box, and its
`.segment-button-indicator` sub-element (with that sub-element's bounding
box) when it is rendered. -/
structure Button where
  value : SegmentValue
  disabled : Bool
  contentId : Option String
  indicator : Option Rect
  rect : Rect
deriving Repr, DecidableEq

/-- A reference to a concrete DOM element: the i-th `ion-segment-button`
of this segment (`tagName = ION-SEGMENT-BUTTON`), the `ion-segment` host
itself (`tagName = ION-SEGMENT`), or some unrelated element. -/
inductive ElRef where
  | btn (i : Nat)
  | host
  | other
deriving Repr, DecidableEq

/-- The observable side effects of the segment. -/
inductive Action where
  /-- `ionChange.emit({value})` — the public commit notification. -/
  | ionChange (value : Option SegmentValue)
  /-- `ionSelect.emit({value})` — the internal selection-observed
  notification. -/
  | ionSelect (value : Option SegmentValue)
  /-- `ionStyle.emit(...)`. -/
  | ionStyle
  /-- The `writeTask` body of `checkButton`: the transform computed from
  the two indicator boxes is applied, a reflow is forced, and the
  transition replayed.  The two boxes determine the transform. -/
  | animate (prevBox curBox : Rect)
  /-- `segmentView.setContent(contentId, smoothScroll)`. -/
  | setContent (contentId : String) (smooth : Bool)
  /-- `el.scrollTo(...)` issued by `scrollActiveButtonIntoView`. -/
  | scrollTo (smooth : Bool)
  /-- `classList.toggle('segment-button-activated', b)` on every button
  (from `setActivated`). -/
  | activatedClasses (flag : Bool)
deriving Repr, DecidableEq

/-- The segment's own state: props, `@State` fields and private fields of
the class, plus the ordered child button list and the host geometry that
the DOM queries read. -/
structure SegmentState where
  buttons : List Button
  value : Option SegmentValue
  disabled : Bool
  scrollable : Bool
  swipeGesture : Bool
  selectOnFocus : Bool
  activated : Bool
  valueBeforeGesture : Option SegmentValue
  lastNextIndex : Option Int
  triggerScrollOnValueChange : Option Bool
  hasSegmentView : Bool
  segmentViewDisabled : Bool
  rtl : Bool
  hostRect : Rect
deriving Repr, DecidableEq

/-- A normalized gesture event: the pointer x coordinate and the element
the event started on (`detail.event.target`). -/
structure GestureDetail where
  currentX : Int
  target : ElRef
deriving Repr, DecidableEq

/-- Results of a handler run: the new state and the actions it performed,
or `none` for a thrown `TypeError` / exhausted watcher fuel. -/
abbrev Result := Option (SegmentState × List Action)

/-- JS `Array.prototype.findIndex`: first index satisfying `p`, `-1` if
none does. -/
def jsFindIndex (p : α → Bool) : List α → Int
  | [] => -1
  | a :: as =>
    if p a then 0
    else if jsFindIndex p as = -1 then -1 else jsFindIndex p as + 1

/-- JS indexing `l[i]` with an `Int` index: `undefined` (`none`) when out
of range. -/
def jsGet (l : List α) (i : Int) : Option α :=
  if 0 ≤ i then l[i.toNat]? else none

/-- JS `Math.round` on an exact rational: halves round toward `+∞`. -/
def jsRound (q : Rat) : Int := Rat.floor (q + (1 : Rat) / 2)

/-- `buttons.findIndex((button) => button.value === value)`. -/
def indexOfValue (buttons : List Button) (v : Option SegmentValue) : Int :=
  jsFindIndex (fun b => some b.value == v) buttons

/-- `button.value` for a referenced element; non-buttons have no `value`
property (`undefined`). -/
def elValue (st : SegmentState) (e : ElRef) : Option SegmentValue :=
  match e with
  | .btn i => (st.buttons[i]?).map (·.value)
  | _ => none

/-- `getIndicator(el)?.getBoundingClientRect()`: the
`.segment-button-indicator` sub-element's box when the element is a
segment button that renders one; `querySelector` finds none on other
elements. -/
def indicatorOf (st : SegmentState) (e : ElRef) : Option Rect :=
  match e with
  | .btn i =>
    match st.buttons[i]? with
    | some b => b.indicator
    | none => none
  | _ => none

/-- `scrollActiveButtonIntoView(smoothScroll)`: when the segment is
scrollable and a button matches the current value, issue a `scrollTo`.
The scroll offset is box arithmetic on current layout and is not needed
by any property here; only the occurrence and smoothness are modelled. -/
def scrollActiveButtonIntoView (st : SegmentState) (smooth : Bool) : List Action :=
  if st.scrollable ∧ (st.buttons.any fun b => some b.value == st.value) then
    [Action.scrollTo smooth]
  else
    []

/-- `updateSegmentView(smoothScroll)`: find the button matching the
current value; if it has a `contentId` and a segment view is attached,
instruct the view to set its content. -/
def updateSegmentView (st : SegmentState) (smooth : Bool) : SegmentState × List Action :=
  match st.buttons.find? (fun b => some b.value == st.value) with
  | some b =>
    match b.contentId with
    | some cid => if st.hasSegmentView then (st, [Action.setContent cid smooth]) else (st, [])
    | none => (st, [])
  | none => (st, [])

/-- `setActivated(activated)`: toggle the `segment-button-activated`
class on every button and set the `activated` state. -/
def setActivated (st : SegmentState) (b : Bool) : SegmentState × List Action :=
  ({ st with activated := b }, [Action.activatedClasses b])

/-- The tail of `valueChanged` shared by all its paths: emit `ionSelect`
with the new value, scroll the active button into view when no segment
view is attached, and reset `triggerScrollOnValueChange`. -/
def afterSelect (value : Option SegmentValue) (r1 : Result) : Result :=
  match r1 with
  | none => none
  | some (st1, a1) =>
    some ({ st1 with triggerScrollOnValueChange := none },
      a1 ++ [Action.ionSelect value] ++
        (if ¬st1.hasSegmentView then scrollActiveButtonIntoView st1 true else []))

mutual

/-- Stencil runtime semantics of the mutable prop assignment
`this.value = v`: the `valueChanged` watcher fires exactly when the new
value differs from the old one. -/
def setValue (fuel : Nat) (st : SegmentState) (v : Option SegmentValue) : Result :=
  if st.value = v then
    some (st, [])
  else
    match fuel with
    | 0 => none
    | fuel + 1 => valueChanged fuel { st with value := v } v st.value

/-- The `@Watch('value') valueChanged(value, oldValue)` handler.
`setCheckedClasses` (pure class bookkeeping on the buttons) is not
modelled as an action. -/
def valueChanged (fuel : Nat) (st : SegmentState) (value oldValue : Option SegmentValue) : Result :=
  match fuel with
  | 0 => none
  | fuel + 1 =>
    -- Force a value to exist if we're using a segment view
    if st.hasSegmentView ∧ value = none then
      match st.buttons with
      | [] => none -- `this.getButtons()[0].value` throws on an empty list
      | b0 :: _ => setValue fuel st (some b0.value) -- `return` right after
    else
      afterSelect value
        (if oldValue ≠ none ∧ value ≠ none then
          if indexOfValue st.buttons oldValue ≠ -1 ∧ indexOfValue st.buttons value ≠ -1 then
            if ¬st.hasSegmentView then
              checkButton fuel st (some (.btn (indexOfValue st.buttons oldValue).toNat))
                (some (.btn (indexOfValue st.buttons value).toNat))
            else if st.triggerScrollOnValueChange ≠ some false then
              some (updateSegmentView st true)
            else
              some (st, [])
          else
            some (st, [])
        else if value ≠ none ∧ oldValue = none ∧ st.hasSegmentView then
          some (updateSegmentView st true)
        else
          some (st, []))

/-- `checkButton(previous, current)`: read both indicator boxes, bail out
if either indicator sub-element is missing, otherwise set the value to
the current button's value and schedule the slide animation (whose
deferred `writeTask` also calls `scrollActiveButtonIntoView(true)`).
Calling it with an `undefined` argument throws. -/
def checkButton (fuel : Nat) (st : SegmentState) (previous current : Option ElRef) : Result :=
  match fuel with
  | 0 => none
  | fuel + 1 =>
    match previous, current with
    | some p, some c =>
      match indicatorOf st p, indicatorOf st c with
      | some prevBox, some curBox =>
        match elValue st c with
        | none => none -- unreachable: an element with an indicator is a button
        | some cv =>
          match setValue fuel st (some cv) with
          | none => none
          | some (st1, a1) =>
            -- the synchronous value update runs before the deferred writeTask
            some (st1, a1 ++ (Action.animate prevBox curBox :: scrollActiveButtonIntoView st1 true))
      | _, _ => some (st, [])
    | _, _ => none -- `undefined.shadowRoot` TypeError

end

/-- `activate(detail)`: on gesture start, check the clicked button if
nothing is checked yet, and activate the indicator when the gesture
started on the currently-checked button. -/
def activate (fuel : Nat) (st : SegmentState) (detail : GestureDetail) : Result :=
  match detail.target with
  | .btn i =>
    match st.buttons[i]? with
    | none => none
    | some clicked =>
      let checkedIdx := indexOfValue st.buttons st.value
      let r1 : Result :=
        if checkedIdx = -1 then setValue fuel st (some clicked.value)
        else some (st, [])
      match r1 with
      | none => none
      | some (st1, a1) =>
        if st1.value = some clicked.value then
          let (st2, a2) := setActivated st1 true
          some (st2, a1 ++ a2)
        else
          some (st1, a1)
  | _ => some (st, []) -- clicked.tagName !== 'ION-SEGMENT-BUTTON'

/-- `onStart(detail)`: snapshot the value, then `activate`. -/
def onStart (fuel : Nat) (st : SegmentState) (detail : GestureDetail) : Result :=
  activate fuel { st with valueBeforeGesture := st.value } detail

/-- Whether the point lies inside the rectangle (DOM hit test). -/
def rectContains (r : Rect) (x y : Int) : Bool :=
  r.left ≤ x ∧ x < r.left + r.width ∧ r.top ≤ y ∧ y < r.top + r.height

/-- `root.elementFromPoint(x, y)`: the topmost element at the point — a
button when the point is in a button's box, else the segment host when
inside it, else some unrelated element. -/
def elementFromPoint (st : SegmentState) (x y : Int) : ElRef :=
  match st.buttons.findIdx? (fun b => rectContains b.rect x y) with
  | some i => .btn i
  | none => if rectContains st.hostRect x y then .host else .other

/-- `setNextIndex(detail, isEnd)`: the gesture-to-index resolver.  Its
JS boolean return value is unused by both callers and dropped here. -/
def setNextIndex (fuel : Nat) (st : SegmentState) (detail : GestureDetail) (isEnd : Bool) : Result :=
  let rtl := st.rtl
  let activated := st.activated
  let buttons := st.buttons
  let index := indexOfValue buttons st.value
  if index = -1 then
    some (st, [])
  else
    match buttons[index.toNat]? with
    | none => none -- unreachable: findIndex returned a valid position
    | some previous =>
      let rect := previous.rect
      let left := rect.left
      let width := rect.width
      let currentX := detail.currentX
      let previousY := rect.top + rect.height / 2
      let nextEl := elementFromPoint st currentX previousY
      let decreaseIndex := if rtl then currentX > left + width else currentX < left
      let increaseIndex := if rtl then currentX < left else currentX > left + width
      let nextIndex : Option Nat :=
        if activated ∧ ¬isEnd then
          if decreaseIndex then
            if index - 1 ≥ 0 then some (index - 1).toNat else none
          else if increaseIndex then
            -- the source re-tests `activated && !isEnd` here; it already holds
            if index + 1 < (buttons.length : Int) then some (index + 1).toNat else none
          else
            none
        else
          none
      let current : Option ElRef :=
        if activated ∧ ¬isEnd then
          match nextIndex with
          | some ni =>
            match buttons[ni]? with
            | some nb => if ¬nb.disabled then some (.btn ni) else none
            | none => none
          | none => none
        else if ¬activated ∧ isEnd then
          some nextEl
        else
          none
      match current with
      | none => some (st, []) -- return true
      | some c =>
        if c = .host then some (st, []) -- disabled gap: return false
        else if c = .btn index.toNat then some (st, []) -- previous === current
        else checkButton fuel st (some (.btn index.toNat)) (some c)

/-- `onMove(detail)`. -/
def onMove (fuel : Nat) (st : SegmentState) (detail : GestureDetail) : Result :=
  setNextIndex fuel st detail false

/-- `onEnd(detail)`: deactivate, resolve the final index, and emit the
commit notification when the value differs from the pre-gesture
snapshot; always clear the snapshot. -/
def onEnd (fuel : Nat) (st : SegmentState) (detail : GestureDetail) : Result :=
  let (st0, a0) := setActivated st false
  match setNextIndex fuel st0 detail true with
  | none => none
  | some (st1, a1) =>
    let r2 : SegmentState × List Action :=
      match st1.value with
      | none => (st1, [])
      | some v =>
        if st1.valueBeforeGesture ≠ some v then
          ((updateSegmentView st1 true).1,
            Action.ionChange (some v) :: (updateSegmentView st1 true).2)
        else
          (st1, [])
    some ({ r2.1 with valueBeforeGesture := none }, a0 ++ a1 ++ r2.2)

/-- A sequence of `onMove` events, in arrival order. -/
def runMoves (fuel : Nat) : SegmentState → List GestureDetail → Result
  | st, [] => some (st, [])
  | st, d :: ds =>
    match onMove fuel st d with
    | none => none
    | some (st1, a1) =>
      match runMoves fuel st1 ds with
      | none => none
      | some (st2, a2) => some (st2, a1 ++ a2)

/-- `handleSegmentViewScroll(ev)`: the scroll-ratio reconciler.
`isManualScroll` and `fromAttachedView` are the event's
`detail.isManualScroll` flag and the dispatch-origin test
(`ev.composedPath().includes(segmentViewEl) ||
dispatchedFrom?.contains(segmentEl)`). -/
def handleSegmentViewScroll (fuel : Nat) (st : SegmentState) (scrollRatio : Rat)
    (isManualScroll : Bool) (fromAttachedView : Bool) : Result :=
  if ¬isManualScroll then
    some (st, [])
  else if ¬fromAttachedView then
    some (st, [])
  else
    let buttons := st.buttons
    if buttons.length = 0 then
      some (st, [])
    else
      let index := indexOfValue buttons st.value
      let current : Option ElRef := if index = -1 then none else some (.btn index.toNat)
      let nextIndex : Int := jsRound (scrollRatio * ((buttons.length : Rat) - 1))
      if st.lastNextIndex = some nextIndex then
        some (st, [])
      else
        let st' := { st with lastNextIndex := some nextIndex,
                             triggerScrollOnValueChange := some false }
        let nextBtn : Option ElRef :=
          if 0 ≤ nextIndex ∧ nextIndex < (buttons.length : Int) then
            some (.btn nextIndex.toNat)
          else
            none -- `buttons[nextIndex]` is undefined out of range
        match checkButton fuel st' current nextBtn with
        | none => none
        | some (st1, a1) => some (st1, a1 ++ [Action.ionChange st1.value])

/-- The `@Watch('disabled') disabledChanged()` handler.
`gestureChanged()` only toggles the gesture recognizer and is not
observable here. -/
def disabledChanged (st : SegmentState) : SegmentState × List Action :=
  if ¬st.hasSegmentView then
    ({ st with buttons := st.buttons.map fun b => { b with disabled := st.disabled } }, [])
  else
    ({ st with segmentViewDisabled := st.disabled }, [])

/-- The non-disabled buttons paired with their positions in the full
button list (element identity): `this.getButtons().filter((button) =>
!button.disabled)`. -/
def enabledButtons (st : SegmentState) : List (Nat × Button) :=
  (List.enum st.buttons).filter fun p => !p.2.disabled

/-- The keyboard navigation selector argument of `getSegmentButton`. -/
inductive Selector where
  | first
  | last
  | next
  | previous
deriving Repr, DecidableEq

/-- `getSegmentButton(selector)`: resolve the focus target among the
non-disabled buttons.  `activeEl` is `document.activeElement` when it is
one of this segment's buttons (identified by its position in the full
list), `none` otherwise. -/
def getSegmentButton (st : SegmentState) (activeEl : Option Nat) (selector : Selector) :
    Option (Nat × Button) :=
  let buttons := enabledButtons st
  let currIndex := jsFindIndex (fun p => activeEl == some p.1) buttons
  match selector with
  | .first => jsGet buttons 0
  | .last => jsGet buttons ((buttons.length : Int) - 1)
  | .next => (jsGet buttons (currIndex + 1)).orElse fun _ => jsGet buttons 0
  | .previous =>
    (jsGet buttons (currIndex - 1)).orElse fun _ => jsGet buttons ((buttons.length : Int) - 1)

/-- `onSlottedItemsChange`: the slot-change callback invokes the watcher
directly with a single argument, so `oldValue` is `undefined`. -/
def onSlottedItemsChange (fuel : Nat) (st : SegmentState) : Result :=
  valueChanged fuel st st.value none

/-- The values carried by the `ionChange` emissions among the actions. -/
def ionChanges (a : List Action) : List (Option SegmentValue) :=
  a.filterMap fun x =>
    match x with
    | .ionChange v => some v
    | _ => none

/-- The values carried by the `ionSelect` emissions among the actions. -/
def ionSelects (a : List Action) : List (Option SegmentValue) :=
  a.filterMap fun x =>
    match x with
    | .ionSelect v => some v
    | _ => none

/-- The `setContent` instructions among the actions. -/
def setContents (a : List Action) : List (String × Bool) :=
  a.filterMap fun x =>
    match x with
    | .setContent c s => some (c, s)
    | _ => none

/-- How many indicator animations were scheduled. -/
def animateCount (a : List Action) : Nat :=
  (a.filter fun x =>
    match x with
    | .animate _ _ => true
    | _ => false).length

/-! Concrete fixtures used by witnesses and counterexamples: a
three-button segment laid out at x = 0, 100, 200, each button 100px wide
with an indicator sub-element. -/

/-- A rectangle at `l` of width `w`, 40px tall at the top of the page. -/
def mkRect (l w : Int) : Rect := { left := l, top := 0, width := w, height := 40 }

def btnA : Button :=
  { value := "a", disabled := false, contentId := some "ca",
    indicator := some (mkRect 10 80), rect := mkRect 0 100 }

def btnB : Button :=
  { value := "b", disabled := false, contentId := some "cb",
    indicator := some (mkRect 110 80), rect := mkRect 100 100 }

def btnC : Button :=
  { value := "c", disabled := false, contentId := some "cc",
    indicator := some (mkRect 210 80), rect := mkRect 200 100 }

def baseSt : SegmentState :=
  { buttons := [btnA, btnB, btnC], value := some "a", disabled := false,
    scrollable := false, swipeGesture := true, selectOnFocus := false,
    activated := false, valueBeforeGesture := none, lastNextIndex := none,
    triggerScrollOnValueChange := none, hasSegmentView := false,
    segmentViewDisabled := false, rtl := false, hostRect := mkRect 0 300 }

/-- The drag session of the `a→b→c→b` scenario: start on the checked
button `a`, move across `b`, `c`, back over `b`, release over `b`. -/
def dragStart : GestureDetail := ⟨50, .btn 0⟩

def dragMoves : List GestureDetail := [⟨150, .btn 0⟩, ⟨250, .btn 0⟩, ⟨150, .btn 0⟩]

def dragEnd : GestureDetail := ⟨150, .btn 1⟩

def dragSt1 : SegmentState :=
  { baseSt with activated := true, valueBeforeGesture := some "a" }

def dragA1 : List Action := [Action.activatedClasses true]

def dragStB : SegmentState :=
  { baseSt with value := some "b", activated := true, valueBeforeGesture := some "a" }

def dragStC : SegmentState :=
  { baseSt with value := some "c", activated := true, valueBeforeGesture := some "a" }

def moveActsAB : List Action :=
  [Action.animate (mkRect 10 80) (mkRect 110 80), Action.ionSelect (some "b"),
   Action.animate (mkRect 10 80) (mkRect 110 80)]

def moveActsBC : List Action :=
  [Action.animate (mkRect 110 80) (mkRect 210 80), Action.ionSelect (some "c"),
   Action.animate (mkRect 110 80) (mkRect 210 80)]

def moveActsCB : List Action :=
  [Action.animate (mkRect 210 80) (mkRect 110 80), Action.ionSelect (some "b"),
   Action.animate (mkRect 210 80) (mkRect 110 80)]

def dragA2 : List Action := moveActsAB ++ moveActsBC ++ moveActsCB

def dragSt3 : SegmentState := { baseSt with value := some "b" }

def dragA3 : List Action := [Action.activatedClasses false, Action.ionChange (some "b")]

/-- State after programmatically assigning `"c"` to the base fixture. -/
def c2St : SegmentState := { baseSt with value := some "c" }

def c2Acts : List Action :=
  [Action.animate (mkRect 10 80) (mkRect 210 80), Action.ionSelect (some "c")]

/-- The base fixture with an attached segment view. -/
def c3St : SegmentState := { baseSt with hasSegmentView := true }

/-- The state after a user scroll at ratio `1/2`: index 1 committed. -/
def c3St1 : SegmentState :=
  { baseSt with value := some "b", hasSegmentView := true, lastNextIndex := some 1 }

def c3Acts : List Action :=
  [Action.ionSelect (some "b"), Action.animate (mkRect 10 80) (mkRect 110 80),
   Action.ionChange (some "b")]

/-- Three options with the middle one disabled; a drag is active on the
checked first option. -/
def c6St : SegmentState :=
  { baseSt with buttons := [btnA, { btnB with disabled := true }, btnC], activated := true }

/-- The base fixture with its value cleared and a segment view attached:
the default-with-view scenario before first resolution. -/
def c7St : SegmentState := { baseSt with value := none, hasSegmentView := true }

/-- The state after the first resolution defaults to the first option. -/
def c7St1 : SegmentState := { baseSt with hasSegmentView := true }

def c7Acts : List Action := [Action.setContent "ca" true, Action.ionSelect (some "a")]

/-- Three options where the middle option's indicator sub-element is
missing. -/
def c8St : SegmentState :=
  { baseSt with buttons := [btnA, { btnB with indicator := none }, btnC] }

/-- The base fixture with a segment view attached and the group disabled. -/
def c9St : SegmentState := { baseSt with hasSegmentView := true, disabled := true }

/-- The base fixture with the group disabled and no segment view. -/
def c9StNoView : SegmentState := { baseSt with disabled := true }

/-- A plain button for the keyboard-navigation fixture. -/
def btnK (v : String) (d : Bool) : Button :=
  { value := v, disabled := d, contentId := none, indicator := some (mkRect 10 80),
    rect := mkRect 0 100 }

/-- Five options where the first and last are disabled: the enabled ones
sit at positions 1, 2, 3 of the full list. -/
def kbSt : SegmentState :=
  { baseSt with buttons :=
      [btnK "1" true, btnK "2" false, btnK "3" false, btnK "4" false, btnK "5" true] }

/-- The fields of the segment state that the `setValue`/`valueChanged`/
`checkButton` chain never writes (it only writes `value` and
`triggerScrollOnValueChange`). -/
def chainFrame (st st' : SegmentState) : Prop :=
  st'.buttons = st.buttons ∧ st'.lastNextIndex = st.lastNextIndex ∧
  st'.hasSegmentView = st.hasSegmentView ∧ st'.activated = st.activated ∧
  st'.valueBeforeGesture = st.valueBeforeGesture ∧ st'.rtl = st.rtl ∧
  st'.scrollable = st.scrollable ∧ st'.hostRect = st.hostRect

theorem chainFrame_refl (st : SegmentState) : chainFrame st st := by
  simp [chainFrame]

theorem chainFrame_trans {s t u : SegmentState} (h1 : chainFrame s t) (h2 : chainFrame t u) :
    chainFrame s u := by
  obtain ⟨a1, b1, c1, d1, e1, f1, g1, i1⟩ := h1
  obtain ⟨a2, b2, c2, d2, e2, f2, g2, i2⟩ := h2
  exact ⟨a2.trans a1, b2.trans b1, c2.trans c1, d2.trans d1, e2.trans e1,
    f2.trans f1, g2.trans g1, i2.trans i1⟩

theorem chainFrame_setValueState (st : SegmentState) (v : Option SegmentValue) :
    chainFrame st { st with value := v } := by
  simp [chainFrame]

theorem chainFrame_clearTrigger (st : SegmentState) :
    chainFrame st { st with triggerScrollOnValueChange := none } := by
  simp [chainFrame]

theorem jsFindIndex_ge_neg_one (p : α → Bool) (l : List α) : -1 ≤ jsFindIndex p l := by
  induction l with
  | nil => simp [jsFindIndex]
  | cons a as ih =>
    simp only [jsFindIndex]
    split
    · omega
    · split <;> omega

theorem jsFindIndex_eq_ofNat {p : α → Bool} {l : List α} {n : Nat}
    (h : jsFindIndex p l = (n : Int)) : ∃ a, l[n]? = some a ∧ p a = true := by
  induction l generalizing n with
  | nil =>
    simp only [jsFindIndex] at h
    omega
  | cons a as ih =>
    simp only [jsFindIndex] at h
    split at h
    · have hn : n = 0 := by omega
      subst hn
      exact ⟨a, by simp, by assumption⟩
    · split at h
      · omega
      · have hge := jsFindIndex_ge_neg_one p as
        have hm : ∃ m : Nat, jsFindIndex p as = (m : Int) ∧ n = m + 1 := by
          refine ⟨(jsFindIndex p as).toNat, by omega, by omega⟩
        obtain ⟨m, hm, hn⟩ := hm
        obtain ⟨x, hx, hpx⟩ := ih hm
        subst hn
        exact ⟨x, by simpa using hx, hpx⟩

/-- A non-`-1` JS `findIndex` result is a valid position. -/
theorem jsFindIndex_ne_neg_one {p : α → Bool} {l : List α}
    (h : jsFindIndex p l ≠ -1) :
    ∃ n : Nat, jsFindIndex p l = (n : Int) ∧ ∃ a, l[n]? = some a ∧ p a = true := by
  have hge := jsFindIndex_ge_neg_one p l
  have hn : ∃ n : Nat, jsFindIndex p l = (n : Int) :=
    ⟨(jsFindIndex p l).toNat, by omega⟩
  obtain ⟨n, hn⟩ := hn
  exact ⟨n, hn, jsFindIndex_eq_ofNat hn⟩

/-- An `indexOfValue` hit means the value is the hit button's value. -/
theorem indexOfValue_hit {buttons : List Button} {v : Option SegmentValue}
    (h : indexOfValue buttons v ≠ -1) :
    ∃ n : Nat, indexOfValue buttons v = (n : Int) ∧
      ∃ b, buttons[n]? = some b ∧ v = some b.value := by
  simp only [indexOfValue] at h ⊢
  obtain ⟨n, hn, b, hb, hpb⟩ := jsFindIndex_ne_neg_one h
  refine ⟨n, hn, b, hb, ?_⟩
  have hx : some b.value = v := by simpa using hpb
  exact hx.symm

theorem updateSegmentView_fst (st : SegmentState) (s : Bool) :
    (updateSegmentView st s).1 = st := by
  simp only [updateSegmentView]
  repeat' split
  all_goals rfl

theorem afterSelect_inv {v : Option SegmentValue} {r1 : Result} {r : SegmentState × List Action}
    (h : afterSelect v r1 = some r) :
    ∃ st1 a1, r1 = some (st1, a1) ∧
      r.1 = { st1 with triggerScrollOnValueChange := none } ∧
      r.2 = a1 ++ [Action.ionSelect v] ++
        (if ¬st1.hasSegmentView then scrollActiveButtonIntoView st1 true else []) := by
  cases r1 with
  | none => simp [afterSelect] at h
  | some p =>
    obtain ⟨st1, a1⟩ := p
    simp only [afterSelect, Option.some_inj] at h
    subst h
    exact ⟨st1, a1, rfl, rfl, rfl⟩

/-- The watcher chain only writes `value` and
`triggerScrollOnValueChange`. -/
theorem chain_frame :
    ∀ fuel : Nat,
      (∀ st v r, setValue fuel st v = some r → chainFrame st r.1) ∧
      (∀ st v o r, valueChanged fuel st v o = some r → chainFrame st r.1) ∧
      (∀ st p c r, checkButton fuel st p c = some r → chainFrame st r.1) := by
  intro fuel
  induction fuel with
  | zero =>
    refine ⟨fun st v r h => ?_, fun st v o r h => ?_, fun st p c r h => ?_⟩
    · simp only [setValue] at h
      split at h
      · cases h
        exact chainFrame_refl st
      · cases h
    · simp only [valueChanged] at h
      cases h
    · simp only [checkButton] at h
      cases h
  | succ f ih =>
    obtain ⟨ihSV, ihVC, ihCB⟩ := ih
    refine ⟨fun st v r h => ?_, fun st v o r h => ?_, fun st p c r h => ?_⟩
    · simp only [setValue] at h
      split at h
      · cases h
        exact chainFrame_refl st
      · exact chainFrame_trans (chainFrame_setValueState st v) (ihVC _ _ _ _ h)
    · simp only [valueChanged] at h
      split at h
      · split at h
        · cases h
        · exact ihSV _ _ _ h
      · obtain ⟨st1, a1, heq, hr1, -⟩ := afterSelect_inv h
        have hf : chainFrame st st1 := by
          split at heq
          · split at heq
            · split at heq
              · exact ihCB _ _ _ _ heq
              · split at heq
                · injection heq with heq'
                  have h1 : (updateSegmentView st true).1 = st1 := congrArg Prod.fst heq'
                  rw [updateSegmentView_fst] at h1
                  subst h1
                  exact chainFrame_refl st
                · cases heq
                  exact chainFrame_refl st
            · cases heq
              exact chainFrame_refl st
          · split at heq
            · injection heq with heq'
              have h1 : (updateSegmentView st true).1 = st1 := congrArg Prod.fst heq'
              rw [updateSegmentView_fst] at h1
              subst h1
              exact chainFrame_refl st
            · cases heq
              exact chainFrame_refl st
        rw [hr1]
        exact chainFrame_trans hf (chainFrame_clearTrigger st1)
    · simp only [checkButton] at h
      split at h
      · split at h
        · split at h
          · cases h
          · split at h
            · cases h
            · rename_i heq
              cases h
              have hx := ihSV _ _ _ heq
              exact hx
        · cases h
          exact chainFrame_refl st
      · cases h

theorem ionChanges_append (a b : List Action) :
    ionChanges (a ++ b) = ionChanges a ++ ionChanges b := by
  simp [ionChanges]

theorem ionChanges_scrollActive (st : SegmentState) (s : Bool) :
    ionChanges (scrollActiveButtonIntoView st s) = [] := by
  simp only [scrollActiveButtonIntoView]
  split <;> simp [ionChanges]

theorem ionChanges_updateSegmentView (st : SegmentState) (s : Bool) :
    ionChanges (updateSegmentView st s).2 = [] := by
  simp only [updateSegmentView]
  repeat' split
  all_goals simp [ionChanges]

theorem ionChanges_cons_animate (p q : Rect) (l : List Action) :
    ionChanges (Action.animate p q :: l) = ionChanges l := by
  simp [ionChanges]

theorem setContents_append (a b : List Action) :
    setContents (a ++ b) = setContents a ++ setContents b := by
  simp [setContents]

theorem setContents_scrollActive (st : SegmentState) (s : Bool) :
    setContents (scrollActiveButtonIntoView st s) = [] := by
  simp only [scrollActiveButtonIntoView]
  split <;> simp [setContents]

theorem setContents_cons_animate (p q : Rect) (l : List Action) :
    setContents (Action.animate p q :: l) = setContents l := by
  simp [setContents]

theorem setContents_single_ionChange (x : Option SegmentValue) :
    setContents [Action.ionChange x] = [] := by
  simp [setContents]

/-- Setting a defined value never writes the segment view as long as the
suppression flag is down (or no view is attached at all). -/
theorem chain_no_setContent :
    ∀ fuel : Nat,
      (∀ st v r, setValue fuel st (some v) = some r →
        (st.hasSegmentView = true → st.triggerScrollOnValueChange = some false ∧ st.value ≠ none) →
        setContents r.2 = []) ∧
      (∀ st v o r, valueChanged fuel st (some v) o = some r →
        (st.hasSegmentView = true → st.triggerScrollOnValueChange = some false ∧ o ≠ none) →
        setContents r.2 = []) ∧
      (∀ st p c r, checkButton fuel st p c = some r →
        (st.hasSegmentView = true → st.triggerScrollOnValueChange = some false ∧ st.value ≠ none) →
        setContents r.2 = []) := by
  intro fuel
  induction fuel with
  | zero =>
    refine ⟨fun st v r h hg => ?_, fun st v o r h hg => ?_, fun st p c r h hg => ?_⟩
    · simp only [setValue] at h
      split at h
      · cases h
        simp [setContents]
      · cases h
    · simp only [valueChanged] at h
      cases h
    · simp only [checkButton] at h
      cases h
  | succ f ih =>
    obtain ⟨ihSV, ihVC, ihCB⟩ := ih
    refine ⟨fun st v r h hg => ?_, fun st v o r h hg => ?_, fun st p c r h hg => ?_⟩
    · simp only [setValue] at h
      split at h
      · cases h
        simp [setContents]
      · refine ihVC _ _ _ _ h fun hsv => ?_
        obtain ⟨ht, hv⟩ := hg hsv
        exact ⟨ht, hv⟩
    · simp only [valueChanged] at h
      split at h
      · rename_i hc
        exact absurd hc.2 (by simp)
      · obtain ⟨st1, a1, heq, -, hr2⟩ := afterSelect_inv h
        have h1 : setContents a1 = [] := by
          split at heq
          · split at heq
            · split at heq
              · rename_i hns
                exact ihCB _ _ _ _ heq fun hsv => absurd hsv hns
              · rename_i htr0
                rw [not_not] at htr0
                split at heq
                · rename_i htrig
                  exact absurd (hg htr0).1 htrig
                · cases heq
                  simp [setContents]
            · cases heq
              simp [setContents]
          · split at heq
            · rename_i hcond
              exact absurd (hg hcond.2.2).2 (by simp [hcond.2.1])
            · cases heq
              simp [setContents]
        rw [hr2, setContents_append, setContents_append, h1]
        have h3 : setContents [Action.ionSelect (some v)] = [] := by simp [setContents]
        rw [h3]
        split
        · simp [setContents_scrollActive]
        · simp [setContents]
    · simp only [checkButton] at h
      split at h
      · split at h
        · split at h
          · cases h
          · split at h
            · cases h
            · rename_i st1 a1 heq
              cases h
              have hx : setContents a1 = [] := ihSV _ _ _ heq hg
              show setContents (a1 ++ _) = []
              rw [setContents_append, hx, setContents_cons_animate, setContents_scrollActive]
              rfl
        · cases h
          simp [setContents]
      · cases h

theorem elValue_inv {st : SegmentState} {e : ElRef} {cv : SegmentValue}
    (h : elValue st e = some cv) :
    ∃ i b, e = ElRef.btn i ∧ st.buttons[i]? = some b ∧ b.value = cv := by
  cases e with
  | btn i =>
    simp only [elValue, Option.map_eq_some'] at h
    obtain ⟨b, hb, hv⟩ := h
    exact ⟨i, b, rfl, hb, hv⟩
  | host => simp [elValue] at h
  | other => simp [elValue] at h

/-- Setting a defined value through the chain leaves exactly that value
in the state; `checkButton` either leaves the value alone or moves it to
the value of the button it was pointed at. -/
theorem chain_value :
    ∀ fuel : Nat,
      (∀ st v r, setValue fuel st (some v) = some r → r.1.value = some v) ∧
      (∀ st v o r, st.value = some v → valueChanged fuel st (some v) o = some r →
        r.1.value = some v) ∧
      (∀ st p c r, checkButton fuel st p c = some r →
        r.1.value = st.value ∨
          ∃ i b, c = some (ElRef.btn i) ∧ st.buttons[i]? = some b ∧ r.1.value = some b.value) := by
  intro fuel
  induction fuel with
  | zero =>
    refine ⟨fun st v r h => ?_, fun st v o r hsv h => ?_, fun st p c r h => ?_⟩
    · simp only [setValue] at h
      split at h
      · cases h
        assumption
      · cases h
    · simp only [valueChanged] at h
      cases h
    · simp only [checkButton] at h
      cases h
  | succ f ih =>
    obtain ⟨ihSV, ihVC, ihCB⟩ := ih
    refine ⟨fun st v r h => ?_, fun st v o r hsv h => ?_, fun st p c r h => ?_⟩
    · simp only [setValue] at h
      split at h
      · cases h
        assumption
      · exact ihVC _ _ _ _ rfl h
    · simp only [valueChanged] at h
      split at h
      · rename_i hc
        exact absurd hc.2 (by simp)
      · obtain ⟨st1, a1, heq, hr1, -⟩ := afterSelect_inv h
        have h1 : st1.value = some v := by
          split at heq
          · rename_i hcond
            split at heq
            · rename_i hidx
              split at heq
              · rcases ihCB _ _ _ _ heq with hl | ⟨i, b, hci, hb, hv⟩
                · rw [hl]
                  exact hsv
                · obtain ⟨n, hn, b', hb', hv'⟩ := indexOfValue_hit hidx.2
                  have hin : i = (indexOfValue st.buttons (some v)).toNat := by
                    have := hci
                    simp only [Option.some_inj, ElRef.btn.injEq] at this
                    omega
                  have hnn : (indexOfValue st.buttons (some v)).toNat = n := by
                    rw [hn]
                    simp
                  rw [hin, hnn] at hb
                  rw [hb'] at hb
                  cases hb
                  rw [hv]
                  simpa using hv'.symm
              · split at heq
                · injection heq with heq'
                  have h2 : (updateSegmentView st true).1 = st1 := congrArg Prod.fst heq'
                  rw [updateSegmentView_fst] at h2
                  rw [← h2]
                  exact hsv
                · cases heq
                  exact hsv
            · cases heq
              exact hsv
          · split at heq
            · injection heq with heq'
              have h2 : (updateSegmentView st true).1 = st1 := congrArg Prod.fst heq'
              rw [updateSegmentView_fst] at h2
              rw [← h2]
              exact hsv
            · cases heq
              exact hsv
        rw [hr1]
        exact h1
    · simp only [checkButton] at h
      split at h
      · split at h
        · split at h
          · cases h
          · rename_i hev
            split at h
            · cases h
            · rename_i st1 a1 heq
              cases h
              obtain ⟨i, b, hci, hb, hv⟩ := elValue_inv hev
              right
              refine ⟨i, b, by rw [hci], hb, ?_⟩
              have hx := ihSV _ _ _ heq
              rw [hv]
              exact hx
        · cases h
          left
          rfl
      · cases h

theorem ionChanges_cons_activatedClasses (b : Bool) (l : List Action) :
    ionChanges (Action.activatedClasses b :: l) = ionChanges l := by
  simp [ionChanges]

/-- The watcher chain never emits `ionChange`: the commit notification is
only produced by the explicit `emitValueChange` call sites. -/
theorem chain_no_ionChange :
    ∀ fuel : Nat,
      (∀ st v r, setValue fuel st v = some r → ionChanges r.2 = []) ∧
      (∀ st v o r, valueChanged fuel st v o = some r → ionChanges r.2 = []) ∧
      (∀ st p c r, checkButton fuel st p c = some r → ionChanges r.2 = []) := by
  intro fuel
  induction fuel with
  | zero =>
    refine ⟨fun st v r h => ?_, fun st v o r h => ?_, fun st p c r h => ?_⟩
    · simp only [setValue] at h
      split at h
      · cases h
        simp [ionChanges]
      · cases h
    · simp only [valueChanged] at h
      cases h
    · simp only [checkButton] at h
      cases h
  | succ f ih =>
    obtain ⟨ihSV, ihVC, ihCB⟩ := ih
    refine ⟨fun st v r h => ?_, fun st v o r h => ?_, fun st p c r h => ?_⟩
    · simp only [setValue] at h
      split at h
      · cases h
        simp [ionChanges]
      · exact ihVC _ _ _ _ h
    · simp only [valueChanged] at h
      split at h
      · split at h
        · cases h
        · exact ihSV _ _ _ h
      · obtain ⟨st1, a1, heq, -, hr2⟩ := afterSelect_inv h
        have h1 : ionChanges a1 = [] := by
          split at heq
          · split at heq
            · split at heq
              · have hx := ihCB _ _ _ _ heq
                exact hx
              · split at heq
                · injection heq with heq'
                  have h2 : (updateSegmentView st true).2 = a1 := congrArg Prod.snd heq'
                  rw [← h2]
                  exact ionChanges_updateSegmentView st true
                · cases heq
                  simp [ionChanges]
            · cases heq
              simp [ionChanges]
          · split at heq
            · injection heq with heq'
              have h2 : (updateSegmentView st true).2 = a1 := congrArg Prod.snd heq'
              rw [← h2]
              exact ionChanges_updateSegmentView st true
            · cases heq
              simp [ionChanges]
        rw [hr2, ionChanges_append, ionChanges_append, h1]
        have h3 : ionChanges [Action.ionSelect v] = [] := by simp [ionChanges]
        rw [h3]
        split
        · simp [ionChanges_scrollActive]
        · simp [ionChanges]
    · simp only [checkButton] at h
      split at h
      · split at h
        · split at h
          · cases h
          · split at h
            · cases h
            · rename_i st1 a1 heq
              cases h
              have hx : ionChanges a1 = [] := ihSV _ _ _ heq
              show ionChanges (a1 ++ _) = []
              rw [ionChanges_append, hx, ionChanges_cons_animate, ionChanges_scrollActive]
              rfl
        · cases h
          simp [ionChanges]
      · cases h

/-- The gesture-to-index resolver writes only `value` and the suppression
flag, and never emits `ionChange`. -/
theorem setNextIndex_frame {fuel : Nat} {st : SegmentState} {d : GestureDetail} {e : Bool}
    {r : SegmentState × List Action} (h : setNextIndex fuel st d e = some r) :
    chainFrame st r.1 ∧ ionChanges r.2 = [] := by
  simp only [setNextIndex] at h
  split at h
  · cases h
    exact ⟨chainFrame_refl st, by simp [ionChanges]⟩
  · split at h
    · cases h
    · split at h
      · cases h
        exact ⟨chainFrame_refl st, by simp [ionChanges]⟩
      · split at h
        · cases h
          exact ⟨chainFrame_refl st, by simp [ionChanges]⟩
        · split at h
          · cases h
            exact ⟨chainFrame_refl st, by simp [ionChanges]⟩
          · exact ⟨(chain_frame fuel).2.2 _ _ _ _ h, (chain_no_ionChange fuel).2.2 _ _ _ _ h⟩

/-- `onStart` snapshots the pre-gesture value and emits no `ionChange`. -/
theorem onStart_state {fuel : Nat} {st : SegmentState} {d : GestureDetail}
    {r : SegmentState × List Action} (h : onStart fuel st d = some r) :
    r.1.valueBeforeGesture = st.value ∧ ionChanges r.2 = [] := by
  simp only [onStart, activate] at h
  split at h
  · split at h
    · cases h
    · split at h
      · cases h
      · rename_i st1 a1 heq
        have hfr : st1.valueBeforeGesture = st.value ∧ ionChanges a1 = [] := by
          split at heq
          · have hc := (chain_frame fuel).1 _ _ _ heq
            have hn := (chain_no_ionChange fuel).1 _ _ _ heq
            exact ⟨hc.2.2.2.2.1, hn⟩
          · cases heq
            exact ⟨rfl, by simp [ionChanges]⟩
        split at h
        · cases h
          refine ⟨hfr.1, ?_⟩
          show ionChanges (a1 ++ [Action.activatedClasses true]) = []
          rw [ionChanges_append, hfr.2]
          simp [ionChanges]
        · cases h
          exact hfr
  · cases h
    exact ⟨rfl, by simp [ionChanges]⟩

/-- A run of move events preserves the pre-gesture snapshot and emits no
`ionChange`. -/
theorem runMoves_state {fuel : Nat} :
    ∀ (ms : List GestureDetail) (st : SegmentState) (r : SegmentState × List Action),
      runMoves fuel st ms = some r →
      r.1.valueBeforeGesture = st.valueBeforeGesture ∧ ionChanges r.2 = [] := by
  intro ms
  induction ms with
  | nil =>
    intro st r h
    simp only [runMoves] at h
    cases h
    exact ⟨rfl, by simp [ionChanges]⟩
  | cons d ds ih =>
    intro st r h
    simp only [runMoves, onMove] at h
    split at h
    · cases h
    · rename_i st1 a1 heq1
      split at h
      · cases h
      · rename_i st2 a2 heq2
        cases h
        have h1 := setNextIndex_frame heq1
        have h2 := ih _ _ heq2
        refine ⟨?_, ?_⟩
        · rw [h2.1]
          exact h1.1.2.2.2.2.1
        · show ionChanges (a1 ++ a2) = []
          rw [ionChanges_append, h1.2, h2.2]
          rfl

theorem ionChanges_cons_ionChange (x : Option SegmentValue) (l : List Action) :
    ionChanges (Action.ionChange x :: l) = x :: ionChanges l := by
  simp [ionChanges]

theorem ionChanges_nil : ionChanges [] = [] := rfl

/-- C1: over a whole drag session, the gesture-start and every
gesture-move event emit no `ionChange`; the gesture-end event emits
`ionChange` exactly once — carrying the final value — if and only if the
value at gesture end is defined and differs from the value snapshotted at
gesture start (`valueBeforeGesture`, the value when the gesture began). -/
theorem c1_drag_commit_once (fuel : Nat) (st : SegmentState) (sd ed : GestureDetail)
    (ms : List GestureDetail) (st1 st2 st3 : SegmentState) (a1 a2 a3 : List Action)
    (h1 : onStart fuel st sd = some (st1, a1))
    (h2 : runMoves fuel st1 ms = some (st2, a2))
    (h3 : onEnd fuel st2 ed = some (st3, a3)) :
    st1.valueBeforeGesture = st.value ∧
    ionChanges a1 = [] ∧ ionChanges a2 = [] ∧
    ionChanges a3 = (if st3.value ≠ none ∧ st3.value ≠ st.value then [st3.value] else []) := by
  have hs := onStart_state h1
  have hm := runMoves_state _ _ _ h2
  have hvbg : st2.valueBeforeGesture = st.value := by rw [hm.1, hs.1]
  refine ⟨hs.1, hs.2, hm.2, ?_⟩
  simp only [onEnd, setActivated] at h3
  split at h3
  · cases h3
  · rename_i stx ax heq
    have hx := setNextIndex_frame heq
    have hxvbg : stx.valueBeforeGesture = st.value := by
      rw [hx.1.2.2.2.2.1]
      exact hvbg
    cases h3
    split
    · rename_i hv
      simp [ionChanges_append, ionChanges_cons_activatedClasses, ionChanges_nil, hx.2, hv]
    · rename_i v hv
      split
      · rename_i hne
        have hnev : ¬some v = st.value := by
          rw [← hxvbg]
          intro hc
          exact hne hc.symm
        simp [ionChanges_append, ionChanges_cons_activatedClasses, ionChanges_cons_ionChange,
          ionChanges_updateSegmentView, ionChanges_nil, hx.2, hv, updateSegmentView_fst, hnev]
      · rename_i hne
        rw [not_not] at hne
        have hsv : st.value = some v := by rw [← hxvbg, hne]
        simp [ionChanges_append, ionChanges_cons_activatedClasses, ionChanges_nil, hx.2, hv, hsv]

/-- C1 witness: for options `a`, `b`, `c`, the drag session that starts on
`a`, moves across `a→b→c→b` and releases over `b` emits exactly one
`ionChange`, carrying the value `b`. -/
theorem c1_drag_commit_once_witness :
    (onStart 9 baseSt dragStart = some (dragSt1, dragA1) ∧
     runMoves 9 dragSt1 dragMoves = some (dragStB, dragA2) ∧
     onEnd 9 dragStB dragEnd = some (dragSt3, dragA3)) ∧
    (dragSt1.valueBeforeGesture = baseSt.value ∧
     ionChanges dragA1 = [] ∧ ionChanges dragA2 = [] ∧
     ionChanges dragA3 =
       (if dragSt3.value ≠ none ∧ dragSt3.value ≠ baseSt.value then [dragSt3.value] else [])) ∧
    dragSt3.value = some "b" ∧ ionChanges dragA3 = [some "b"] := by
  have e1 : onMove 9 dragSt1 ⟨150, ElRef.btn 0⟩ = some (dragStB, moveActsAB) := by decide
  have e2 : onMove 9 dragStB ⟨250, ElRef.btn 0⟩ = some (dragStC, moveActsBC) := by decide
  have e3 : onMove 9 dragStC ⟨150, ElRef.btn 0⟩ = some (dragStB, moveActsCB) := by decide
  have h1 : onStart 9 baseSt dragStart = some (dragSt1, dragA1) := by decide
  have h2 : runMoves 9 dragSt1 dragMoves = some (dragStB, dragA2) := by
    simp only [dragMoves, runMoves, e1, e2, e3]
    decide
  have h3 : onEnd 9 dragStB dragEnd = some (dragSt3, dragA3) := by decide
  exact ⟨⟨h1, h2, h3⟩,
    c1_drag_commit_once 9 baseSt dragStart dragEnd dragMoves dragSt1 dragStB dragSt3
      dragA1 dragA2 dragA3 h1 h2 h3,
    by decide, by decide⟩

theorem ionSelects_append (a b : List Action) :
    ionSelects (a ++ b) = ionSelects a ++ ionSelects b := by
  simp [ionSelects]

theorem ionSelects_nil : ionSelects [] = [] := rfl

theorem ionSelects_scrollActive (st : SegmentState) (s : Bool) :
    ionSelects (scrollActiveButtonIntoView st s) = [] := by
  simp only [scrollActiveButtonIntoView]
  split <;> simp [ionSelects]

theorem ionSelects_updateSegmentView (st : SegmentState) (s : Bool) :
    ionSelects (updateSegmentView st s).2 = [] := by
  simp only [updateSegmentView]
  repeat' split
  all_goals simp [ionSelects]

theorem ionSelects_cons_animate (p q : Rect) (l : List Action) :
    ionSelects (Action.animate p q :: l) = ionSelects l := by
  simp [ionSelects]

theorem ionSelects_single (x : Option SegmentValue) :
    ionSelects [Action.ionSelect x] = [x] := by
  simp [ionSelects]

/-- C2: a programmatic external assignment of a defined, changed value
emits the selection-observed notification (`ionSelect`) once, carrying
the new value, and never emits the public commit notification
(`ionChange`) — including when both the old and the new value resolve to
real options. -/
theorem c2_programmatic_silent (fuel : Nat) (st : SegmentState) (v : SegmentValue)
    (st' : SegmentState) (a : List Action)
    (hch : st.value ≠ some v)
    (h : setValue fuel st (some v) = some (st', a)) :
    ionChanges a = [] ∧ ionSelects a = [some v] := by
  refine ⟨(chain_no_ionChange fuel).1 _ _ _ h, ?_⟩
  cases fuel with
  | zero =>
    simp only [setValue] at h
    rw [if_neg hch] at h
    cases h
  | succ f =>
    simp only [setValue] at h
    rw [if_neg hch] at h
    cases f with
    | zero =>
      simp only [valueChanged] at h
      cases h
    | succ g =>
      simp only [valueChanged] at h
      split at h
      · rename_i hc
        exact absurd hc.2 (by simp)
      · obtain ⟨st1, a1, heq, -, hr2⟩ := afterSelect_inv h
        have hsel1 : ionSelects a1 = [] := by
          split at heq
          · rename_i hcond
            split at heq
            · rename_i hidx
              split at heq
              · -- checkButton path (no segment view attached)
                cases g with
                | zero =>
                  simp only [checkButton] at heq
                  cases heq
                | succ k =>
                  simp only [checkButton] at heq
                  split at heq
                  · split at heq
                    · cases heq
                    · rename_i cv hev
                      obtain ⟨n, hn, b, hb, hvb⟩ := indexOfValue_hit hidx.2
                      obtain ⟨i, b2, hi, hb2, hbv⟩ := elValue_inv hev
                      have hb2' : st.buttons[i]? = some b2 := hb2
                      have hieq : (indexOfValue st.buttons (some v)).toNat = i :=
                        ElRef.btn.inj hi
                      have htn : (indexOfValue st.buttons (some v)).toNat = n := by
                        rw [hn]
                        simp
                      have hin : i = n := by omega
                      rw [hin, hb] at hb2'
                      cases hb2'
                      have hbveq : v = b.value := by simpa using hvb
                      have hcv : cv = v := hbv.symm.trans hbveq.symm
                      split at heq
                      · cases heq
                      · rename_i stX aX heqX
                        cases heq
                        rw [hcv] at heqX
                        rw [show setValue k { st with value := some v } (some v) =
                            some ({ st with value := some v }, []) from by
                          cases k <;> simp [setValue]] at heqX
                        cases heqX
                        show ionSelects ([] ++ _) = []
                        rw [List.nil_append, ionSelects_cons_animate, ionSelects_scrollActive]
                  · cases heq
                    exact ionSelects_nil
              · split at heq
                · injection heq with heq'
                  have h2 : (updateSegmentView { st with value := some v } true).2 = a1 :=
                    congrArg Prod.snd heq'
                  rw [← h2]
                  exact ionSelects_updateSegmentView _ true
                · cases heq
                  exact ionSelects_nil
            · cases heq
              exact ionSelects_nil
          · split at heq
            · injection heq with heq'
              have h2 : (updateSegmentView { st with value := some v } true).2 = a1 :=
                congrArg Prod.snd heq'
              rw [← h2]
              exact ionSelects_updateSegmentView _ true
            · cases heq
              exact ionSelects_nil
        have hr2' : a = a1 ++ [Action.ionSelect (some v)] ++
            (if ¬st1.hasSegmentView then scrollActiveButtonIntoView st1 true else []) := hr2
        rw [hr2', ionSelects_append, ionSelects_append, hsel1, ionSelects_single]
        split
        · rw [ionSelects_scrollActive]
          rfl
        · rw [ionSelects_nil]
          rfl

/-- `checkButton` on a JS-`undefined` argument throws
(`undefined.shadowRoot`). -/
theorem checkButton_undefined {fuel : Nat} {st : SegmentState} {p c : Option ElRef}
    (h : p = none ∨ c = none) : checkButton fuel st p c = none := by
  cases fuel with
  | zero => simp [checkButton]
  | succ f =>
    rcases h with h | h
    · subst h
      simp [checkButton]
    · subst h
      cases p with
      | none => simp [checkButton]
      | some x => simp [checkButton]

/-- C3: a user-driven scroll-ratio event never instructs the paged view
to set its content: the handler raises the suppression flag
(`triggerScrollOnValueChange := false`) before updating the value, so
the value-change path skips the segment-view write for that update. -/
theorem c3_scroll_no_setContent (fuel : Nat) (st : SegmentState) (r : Rat)
    (m f : Bool) (st' : SegmentState) (a : List Action)
    (h : handleSegmentViewScroll fuel st r m f = some (st', a)) :
    setContents a = [] := by
  simp only [handleSegmentViewScroll] at h
  split at h
  · cases h
    rfl
  · split at h
    · cases h
      rfl
    · split at h
      · cases h
        rfl
      · split at h
        · cases h
          rfl
        · split at h
          · cases h
          · rename_i heq
            cases h
            rw [setContents_append, setContents_single_ionChange, List.append_nil]
            split at heq
            · rw [checkButton_undefined (Or.inl rfl)] at heq
              cases heq
            · rename_i hidx
              refine (chain_no_setContent fuel).2.2 _ _ _ _ heq fun hsv => ⟨rfl, ?_⟩
              obtain ⟨n, hn, b, hb, hv⟩ := indexOfValue_hit hidx
              show st.value ≠ none
              simp [hv]

/-- C2 witness: assigning `"c"` over `"a"` (both valid options) emits
`ionSelect` with `"c"` and no `ionChange`. -/
theorem c2_programmatic_silent_witness :
    (baseSt.value ≠ some "c" ∧ setValue 9 baseSt (some "c") = some (c2St, c2Acts)) ∧
    (ionChanges c2Acts = [] ∧ ionSelects c2Acts = [some "c"]) :=
  ⟨⟨by decide, by decide⟩,
   c2_programmatic_silent 9 baseSt "c" c2St c2Acts (by decide) (by decide)⟩

/-- C3 witness: a user scroll at ratio `1/2` over the three-option
fixture commits value `b` and writes nothing to the segment view. -/
theorem c3_scroll_no_setContent_witness :
    handleSegmentViewScroll 9 c3St (1 / 2) true true = some (c3St1, c3Acts) ∧
    setContents c3Acts = [] :=
  ⟨by decide, c3_scroll_no_setContent 9 c3St (1 / 2) true true c3St1 c3Acts (by decide)⟩

theorem animateCount_append (a b : List Action) :
    animateCount (a ++ b) = animateCount a + animateCount b := by
  simp [animateCount]

theorem animateCount_nil : animateCount [] = 0 := rfl

theorem animateCount_scrollActive (st : SegmentState) (s : Bool) :
    animateCount (scrollActiveButtonIntoView st s) = 0 := by
  simp only [scrollActiveButtonIntoView]
  split <;> simp [animateCount]

theorem animateCount_updateSegmentView (st : SegmentState) (s : Bool) :
    animateCount (updateSegmentView st s).2 = 0 := by
  simp only [updateSegmentView]
  repeat' split
  all_goals simp [animateCount]

theorem animateCount_cons_animate (p q : Rect) (l : List Action) :
    animateCount (Action.animate p q :: l) = animateCount l + 1 := by
  simp [animateCount, List.length_cons]

theorem animateCount_single_ionSelect (x : Option SegmentValue) :
    animateCount [Action.ionSelect x] = 0 := by
  simp [animateCount]

theorem animateCount_single_ionChange (x : Option SegmentValue) :
    animateCount [Action.ionChange x] = 0 := by
  simp [animateCount]

/-- With a segment view attached, setting a defined value schedules no
indicator animation (the `checkButton` path in the watcher requires no
view to be attached). -/
theorem setValue_no_animate_of_view (fuel : Nat) (st : SegmentState) (v : SegmentValue)
    (r : SegmentState × List Action)
    (hsv : st.hasSegmentView = true)
    (h : setValue fuel st (some v) = some r) : animateCount r.2 = 0 := by
  cases fuel with
  | zero =>
    simp only [setValue] at h
    split at h
    · cases h
      rfl
    · cases h
  | succ f =>
    simp only [setValue] at h
    split at h
    · cases h
      rfl
    · cases f with
      | zero =>
        simp only [valueChanged] at h
        cases h
      | succ g =>
        simp only [valueChanged] at h
        split at h
        · rename_i hc
          exact absurd hc.2 (by simp)
        · obtain ⟨st1, a1, heq, -, hr2⟩ := afterSelect_inv h
          have hbr : animateCount a1 = 0 ∧ st1.hasSegmentView = true := by
            split at heq
            · split at heq
              · -- `split` has already discharged the no-view branch via `hsv`
                split at heq
                · injection heq with heq'
                  refine ⟨?_, ?_⟩
                  · have h2 : (updateSegmentView { st with value := some v } true).2 = a1 :=
                      congrArg Prod.snd heq'
                    rw [← h2]
                    exact animateCount_updateSegmentView _ true
                  · have h1 : (updateSegmentView { st with value := some v } true).1 = st1 :=
                      congrArg Prod.fst heq'
                    rw [updateSegmentView_fst] at h1
                    rw [← h1]
                    exact hsv
                · cases heq
                  exact ⟨rfl, hsv⟩
              · cases heq
                exact ⟨rfl, hsv⟩
            · split at heq
              · injection heq with heq'
                refine ⟨?_, ?_⟩
                · have h2 : (updateSegmentView { st with value := some v } true).2 = a1 :=
                    congrArg Prod.snd heq'
                  rw [← h2]
                  exact animateCount_updateSegmentView _ true
                · have h1 : (updateSegmentView { st with value := some v } true).1 = st1 :=
                    congrArg Prod.fst heq'
                  rw [updateSegmentView_fst] at h1
                  rw [← h1]
                  exact hsv
              · cases heq
                exact ⟨rfl, hsv⟩
          have hr2' : r.2 = a1 ++ [Action.ionSelect (some v)] ++
              (if ¬st1.hasSegmentView then scrollActiveButtonIntoView st1 true else []) := hr2
          rw [hr2', if_neg (by simp [hbr.2]), List.append_nil, animateCount_append,
            hbr.1, animateCount_single_ionSelect]

/-- C4: two consecutive user-driven scroll events carrying the same
ratio: when the first one actually moves the indicator (new target
index, valid configuration), it emits exactly one commit notification
and schedules exactly one indicator animation, and the second event is a
complete no-op. -/
theorem c4_scroll_idempotent (fuel : Nat) (st : SegmentState) (r : Rat)
    (st1 : SegmentState) (a1 : List Action)
    (hsv : st.hasSegmentView = true)
    (hind : (st.buttons.all fun b => b.indicator.isSome) = true)
    (hne : st.buttons ≠ [])
    (hguard : st.lastNextIndex ≠ some (jsRound (r * ((st.buttons.length : Rat) - 1))))
    (h : handleSegmentViewScroll fuel st r true true = some (st1, a1)) :
    ionChanges a1 = [st1.value] ∧ animateCount a1 = 1 ∧
    handleSegmentViewScroll fuel st1 r true true = some (st1, []) := by
  simp only [handleSegmentViewScroll] at h
  rw [if_neg (by simp)] at h
  rw [if_neg (by simp)] at h
  rw [if_neg (by simp [hne])] at h
  rw [if_neg hguard] at h
  split at h
  · cases h
  · rename_i heq
    cases h
    -- the `current` argument must be a real button
    split at heq
    · rw [checkButton_undefined (Or.inl rfl)] at heq
      cases heq
    · rename_i hidx
      -- the `nextBtn` argument must be a real button
      split at heq
      case isFalse => -- out-of-range next index
        rw [checkButton_undefined (Or.inr rfl)] at heq
        cases heq
      case isTrue hrange =>
        have hfr := (chain_frame fuel).2.2 _ _ _ _ heq
        refine ⟨?_, ?_, ?_⟩
        · -- exactly one commit, carrying the committed value
          rw [ionChanges_append]
          rw [(chain_no_ionChange fuel).2.2 _ _ _ _ heq]
          rw [ionChanges_cons_ionChange]
          rfl
        · -- exactly one animation
          rw [animateCount_append]
          obtain ⟨n, hn, b, hb, hv⟩ := indexOfValue_hit hidx
          have hnn : (indexOfValue st.buttons st.value).toNat = n := by
            rw [hn]
            simp
          have hbi : b.indicator.isSome := by
            have := List.all_eq_true.mp hind b (List.getElem?_mem hb)
            simpa using this
          obtain ⟨pbox, hpbox⟩ := Option.isSome_iff_exists.mp hbi
          have hnext : (jsRound (r * ((st.buttons.length : Rat) - 1))).toNat <
              st.buttons.length := by omega
          have hbn : st.buttons[(jsRound (r * ((st.buttons.length : Rat) - 1))).toNat]? =
              some (st.buttons[(jsRound (r * ((st.buttons.length : Rat) - 1))).toNat]) :=
            List.getElem?_eq_getElem hnext
          have hbni : (st.buttons[(jsRound (r * ((st.buttons.length : Rat) -
              1))).toNat]).indicator.isSome := by
            have := List.all_eq_true.mp hind _ (List.getElem?_mem hbn)
            simpa using this
          obtain ⟨cbox, hcbox⟩ := Option.isSome_iff_exists.mp hbni
          cases fuel with
          | zero =>
            simp only [checkButton] at heq
            cases heq
          | succ f2 =>
            simp only [checkButton] at heq
            simp only [show indicatorOf
                { st with lastNextIndex := some (jsRound (r * ((st.buttons.length : Rat) - 1))),
                          triggerScrollOnValueChange := some false }
                (ElRef.btn (indexOfValue st.buttons st.value).toNat) = some pbox from by
              simp only [indicatorOf]
              rw [show ({ st with
                  lastNextIndex := some (jsRound (r * ((st.buttons.length : Rat) - 1))),
                  triggerScrollOnValueChange := some false } :
                  SegmentState).buttons[(indexOfValue st.buttons st.value).toNat]? =
                  some b from by rw [hnn]; exact hb]
              exact hpbox,
              show indicatorOf
                { st with lastNextIndex := some (jsRound (r * ((st.buttons.length : Rat) - 1))),
                          triggerScrollOnValueChange := some false }
                (ElRef.btn (jsRound (r * ((st.buttons.length : Rat) - 1))).toNat) =
                some cbox from by
              simp only [indicatorOf]
              rw [show ({ st with
                  lastNextIndex := some (jsRound (r * ((st.buttons.length : Rat) - 1))),
                  triggerScrollOnValueChange := some false } :
                  SegmentState).buttons[(jsRound (r * ((st.buttons.length : Rat) -
                  1))).toNat]? = some (st.buttons[(jsRound (r * ((st.buttons.length : Rat) -
                  1))).toNat]) from hbn]
              exact hcbox] at heq
            split at heq
            · cases heq
            · rename_i cv hev
              split at heq
              · cases heq
              · rename_i stX aX heqX
                cases heq
                show animateCount (aX ++ _) + _ = 1
                rw [animateCount_append]
                have hA : animateCount aX = 0 :=
                  setValue_no_animate_of_view f2
                    { st with lastNextIndex := some (jsRound (r * ((st.buttons.length : Rat) - 1))),
                              triggerScrollOnValueChange := some false }
                    cv (_, aX) hsv heqX
                rw [hA, animateCount_cons_animate, animateCount_scrollActive,
                  animateCount_single_ionChange]
        · -- the second identical-ratio event is a no-op
          have hb1 : st1.buttons = st.buttons := hfr.1
          have hl1 : st1.lastNextIndex =
              some (jsRound (r * ((st.buttons.length : Rat) - 1))) := hfr.2.1
          simp only [handleSegmentViewScroll]
          rw [if_neg (by simp)]
          rw [if_neg (by simp)]
          rw [hb1]
          rw [if_neg (by simp [hne])]
          rw [if_pos hl1]

/-- C4 witness: over the three-option view fixture, scrolling twice at
ratio `1/2` commits exactly once, animates the indicator exactly once,
and the second identical-ratio event is a no-op. -/
theorem c4_scroll_idempotent_witness :
    (c3St.hasSegmentView = true ∧
     (c3St.buttons.all fun b => b.indicator.isSome) = true ∧
     c3St.buttons ≠ [] ∧
     c3St.lastNextIndex ≠ some (jsRound ((1 / 2 : Rat) * ((c3St.buttons.length : Rat) - 1))) ∧
     handleSegmentViewScroll 9 c3St (1 / 2) true true = some (c3St1, c3Acts)) ∧
    (ionChanges c3Acts = [c3St1.value] ∧ animateCount c3Acts = 1 ∧
     handleSegmentViewScroll 9 c3St1 (1 / 2) true true = some (c3St1, [])) :=
  ⟨⟨rfl, by decide, by decide, by decide, by decide⟩,
   c4_scroll_idempotent 9 c3St (1 / 2) c3St1 c3Acts rfl (by decide) (by decide) (by decide)
     (by decide)⟩

/-- C5 counterexample: on the three-option view fixture the out-of-range
ratio `2` derives index `round(2 * 2) = 4`, which is used unclamped; the
button lookup `buttons[4]` is undefined and the handler throws
(`undefined.shadowRoot`) instead of no-opping or selecting. -/
theorem c5_clamp_counterexample :
    jsRound ((2 : Rat) * ((c3St.buttons.length : Rat) - 1)) = 4 ∧
    ¬(0 ≤ (4 : Int) ∧ (4 : Int) < (c3St.buttons.length : Int)) ∧
    handleSegmentViewScroll 9 c3St 2 true true = none :=
  ⟨by decide, by decide, by decide⟩

/-- C5 amended: the handler does not clamp the derived index. What holds
instead: for an in-range ratio `0 ≤ r ≤ 1` the derived index
`round(r * (count − 1))` always lies within `[0, count − 1]`, so only an
out-of-range ratio can reach the out-of-bounds button access (on which
the handler throws rather than no-opping). -/
theorem c5_index_in_range (st : SegmentState) (r : Rat)
    (h0 : 0 ≤ r) (h1 : r ≤ 1) (hne : st.buttons ≠ []) :
    0 ≤ jsRound (r * ((st.buttons.length : Rat) - 1)) ∧
    jsRound (r * ((st.buttons.length : Rat) - 1)) < (st.buttons.length : Int) := by
  have hlen : 1 ≤ st.buttons.length := List.length_pos.mpr hne
  have hn1 : (1 : Rat) ≤ (st.buttons.length : Rat) := by exact_mod_cast hlen
  have hx0 : 0 ≤ r * ((st.buttons.length : Rat) - 1) := mul_nonneg h0 (by linarith)
  have hx1 : r * ((st.buttons.length : Rat) - 1) ≤ (st.buttons.length : Rat) - 1 :=
    mul_le_of_le_one_left (by linarith) h1
  constructor
  · simp only [jsRound]
    refine Rat.le_floor.mpr ?_
    push_cast
    linarith
  · simp only [jsRound]
    by_contra hc
    rw [not_lt] at hc
    have := Rat.le_floor.mp hc
    push_cast at this
    linarith

/-- C5 amended witness: at in-range ratio `1/2` over the three-option
fixture the derived index lies within bounds. -/
theorem c5_index_in_range_witness :
    ((0 : Rat) ≤ 1 / 2 ∧ (1 / 2 : Rat) ≤ 1 ∧ c3St.buttons ≠ []) ∧
    (0 ≤ jsRound ((1 / 2 : Rat) * ((c3St.buttons.length : Rat) - 1)) ∧
     jsRound ((1 / 2 : Rat) * ((c3St.buttons.length : Rat) - 1)) <
       (c3St.buttons.length : Int)) :=
  ⟨⟨by decide, by decide, by decide⟩,
   c5_index_in_range c3St (1 / 2) (by decide) (by decide) (by decide)⟩

theorem all_indicator_isSome {st : SegmentState} {k : Nat} {b : Button}
    (hind : (st.buttons.all fun b => b.indicator.isSome) = true)
    (hb : st.buttons[k]? = some b) : b.indicator.isSome := by
  have := List.all_eq_true.mp hind b (List.getElem?_mem hb)
  simpa using this

/-- A `checkButton` move onto button `j`, with both indicator
sub-elements present, leaves the group's value at button `j`'s value. -/
theorem checkButton_selects (fuel : Nat) (st : SegmentState) (i j : Nat) (bi bj : Button)
    {st' : SegmentState} {a : List Action}
    (hbi : st.buttons[i]? = some bi) (hbj : st.buttons[j]? = some bj)
    (hii : bi.indicator.isSome) (hji : bj.indicator.isSome)
    (h : checkButton fuel st (some (.btn i)) (some (.btn j)) = some (st', a)) :
    st'.value = some bj.value := by
  cases fuel with
  | zero =>
    simp only [checkButton] at h
    cases h
  | succ f =>
    obtain ⟨pb, hpb⟩ := Option.isSome_iff_exists.mp hii
    obtain ⟨cb, hcb⟩ := Option.isSome_iff_exists.mp hji
    simp only [checkButton,
      show indicatorOf st (.btn i) = some pb from by
        simp only [indicatorOf]
        rw [hbi]
        exact hpb,
      show indicatorOf st (.btn j) = some cb from by
        simp only [indicatorOf]
        rw [hbj]
        exact hcb,
      show elValue st (.btn j) = some bj.value from by
        simp only [elValue]
        rw [hbj]
        rfl] at h
    split at h
    · cases h
    · rename_i stX aX heqX
      cases h
      have hv := (chain_value f).1 _ _ _ heqX
      exact hv

/-- C6: during an activated drag, for a non-terminal move event on a
segment whose checked value resolves to position `i` and whose buttons
all render indicators: crossing the reference box's left edge moves the
checked index down by one in left-to-right mode and up by one in
right-to-left mode (and symmetrically for the right edge); a crossing
whose target would leave `[0, count-1]` is a no-op; and a crossing onto
a disabled neighbor is a no-op — so a middle-disabled 3-option group
never transiently selects its middle option. -/
theorem c6_drag_move (fuel : Nat) (st : SegmentState) (d : GestureDetail)
    (st' : SegmentState) (a : List Action) (i : Nat) (prev : Button)
    (hact : st.activated = true)
    (hidx : indexOfValue st.buttons st.value = (i : Int))
    (hprev : st.buttons[i]? = some prev)
    (hw : 0 ≤ prev.rect.width)
    (hind : (st.buttons.all fun b => b.indicator.isSome) = true)
    (h : setNextIndex fuel st d false = some (st', a)) :
    (d.currentX < prev.rect.left →
      (st.rtl = false →
        (i = 0 → st' = st ∧ a = []) ∧
        (∀ j b, i = j + 1 → st.buttons[j]? = some b →
          (b.disabled = true → st' = st ∧ a = []) ∧
          (b.disabled = false → st'.value = some b.value))) ∧
      (st.rtl = true →
        (i + 1 = st.buttons.length → st' = st ∧ a = []) ∧
        (∀ b, st.buttons[i + 1]? = some b →
          (b.disabled = true → st' = st ∧ a = []) ∧
          (b.disabled = false → st'.value = some b.value)))) ∧
    (d.currentX > prev.rect.left + prev.rect.width →
      (st.rtl = false →
        (i + 1 = st.buttons.length → st' = st ∧ a = []) ∧
        (∀ b, st.buttons[i + 1]? = some b →
          (b.disabled = true → st' = st ∧ a = []) ∧
          (b.disabled = false → st'.value = some b.value))) ∧
      (st.rtl = true →
        (i = 0 → st' = st ∧ a = []) ∧
        (∀ j b, i = j + 1 → st.buttons[j]? = some b →
          (b.disabled = true → st' = st ∧ a = []) ∧
          (b.disabled = false → st'.value = some b.value)))) := by
  have hne1 : ¬((i : Int) = -1) := by omega
  simp only [setNextIndex, hidx, hne1, if_false, Int.toNat_ofNat, hprev, hact] at h
  constructor
  · -- left-edge crossing
    intro hx
    have hnr : ¬(d.currentX > prev.rect.left + prev.rect.width) := by omega
    constructor
    · -- left-to-right: decrease
      intro hrtl
      simp [hrtl, hx, hnr] at h
      constructor
      · intro hi0
        subst hi0
        simp at h
        exact ⟨h.1.symm, h.2⟩
      · intro j b hij hbj
        subst hij
        simp [hbj] at h
        constructor
        · intro hdis
          simp [hdis] at h
          exact ⟨h.1.symm, h.2⟩
        · intro hdis
          simp [hdis] at h
          exact checkButton_selects fuel st (j + 1) j prev b hprev hbj
            (all_indicator_isSome hind hprev) (all_indicator_isSome hind hbj) h
    · -- right-to-left: increase
      intro hrtl
      simp [hrtl, hx, hnr] at h
      constructor
      · intro hilast
        simp [show ¬((i : Int) + 1 < (st.buttons.length : Int)) from by omega] at h
        exact ⟨h.1.symm, h.2⟩
      · intro b hbj
        have hlt : i + 1 < st.buttons.length := by
          by_contra hc
          rw [not_lt] at hc
          rw [List.getElem?_eq_none hc] at hbj
          cases hbj
        simp [show ((i : Int) + 1 < (st.buttons.length : Int)) from by omega, hbj] at h
        constructor
        · intro hdis
          simp [hdis] at h
          exact ⟨h.1.symm, h.2⟩
        · intro hdis
          simp [hdis] at h
          exact checkButton_selects fuel st i (i + 1) prev b hprev hbj
            (all_indicator_isSome hind hprev) (all_indicator_isSome hind hbj) h
  · -- right-edge crossing
    intro hx
    have hnl : ¬(d.currentX < prev.rect.left) := by omega
    constructor
    · -- left-to-right: increase
      intro hrtl
      simp [hrtl, hx, hnl] at h
      constructor
      · intro hilast
        simp [show ¬((i : Int) + 1 < (st.buttons.length : Int)) from by omega] at h
        exact ⟨h.1.symm, h.2⟩
      · intro b hbj
        have hlt : i + 1 < st.buttons.length := by
          by_contra hc
          rw [not_lt] at hc
          rw [List.getElem?_eq_none hc] at hbj
          cases hbj
        simp [show ((i : Int) + 1 < (st.buttons.length : Int)) from by omega, hbj] at h
        constructor
        · intro hdis
          simp [hdis] at h
          exact ⟨h.1.symm, h.2⟩
        · intro hdis
          simp [hdis] at h
          exact checkButton_selects fuel st i (i + 1) prev b hprev hbj
            (all_indicator_isSome hind hprev) (all_indicator_isSome hind hbj) h
    · -- right-to-left: decrease
      intro hrtl
      simp [hrtl, hx, hnl] at h
      constructor
      · intro hi0
        subst hi0
        simp at h
        exact ⟨h.1.symm, h.2⟩
      · intro j b hij hbj
        subst hij
        simp [hbj] at h
        constructor
        · intro hdis
          simp [hdis] at h
          exact ⟨h.1.symm, h.2⟩
        · intro hdis
          simp [hdis] at h
          exact checkButton_selects fuel st (j + 1) j prev b hprev hbj
            (all_indicator_isSome hind hprev) (all_indicator_isSome hind hbj) h


/-- C6 witness: in the middle-disabled fixture, a drag move crossing the
right edge of the checked first option is a complete no-op (the disabled
middle option is never selected), and a whole move sequence pushing
toward the third option leaves the state untouched. -/
theorem c6_drag_move_witness :
    (c6St.activated = true ∧
     indexOfValue c6St.buttons c6St.value = ((0 : Nat) : Int) ∧
     c6St.buttons[(0 : Nat)]? = some btnA ∧
     0 ≤ btnA.rect.width ∧
     (c6St.buttons.all fun b => b.indicator.isSome) = true ∧
     setNextIndex 9 c6St ⟨150, ElRef.btn 0⟩ false = some (c6St, [])) ∧
    (c6St = c6St ∧ ([] : List Action) = []) ∧
    runMoves 9 c6St [⟨150, ElRef.btn 0⟩, ⟨250, ElRef.btn 0⟩, ⟨299, ElRef.btn 0⟩] =
      some (c6St, []) := by
  refine ⟨⟨by decide, by decide, by decide, by decide, by decide, by decide⟩, ?_, by decide⟩
  have hc := c6_drag_move 9 c6St ⟨150, ElRef.btn 0⟩ c6St [] 0 btnA (by decide) (by decide)
    (by decide) (by decide) (by decide) (by decide)
  have hstep := ((hc.2 (by decide)).1 (by decide)).2 { btnB with disabled := true } (by decide)
  exact hstep.1 (by decide)


/-- C7: for a group whose value is undefined and that has an attached
segment view, slot-change resolution sets the value to the first
option's value and issues a `setContent` instruction to the view for
that option's `contentId` (followed by the watcher's `ionSelect`
emission). -/
theorem c7_default_with_view (fuel : Nat) (st st' : SegmentState) (b0 : Button)
    (rest : List Button) (cid : String) (a : List Action)
    (hv : st.value = none) (hsv : st.hasSegmentView = true)
    (hb : st.buttons = b0 :: rest) (hcid : b0.contentId = some cid)
    (h : onSlottedItemsChange fuel st = some (st', a)) :
    st'.value = some b0.value ∧
    a = [Action.setContent cid true, Action.ionSelect (some b0.value)] := by
  cases fuel with
  | zero => simp [onSlottedItemsChange, valueChanged] at h
  | succ f =>
    rw [onSlottedItemsChange] at h
    simp only [valueChanged, hv, hsv, hb, true_and] at h
    cases f with
    | zero => simp [setValue, hv] at h
    | succ g =>
      simp only [setValue, hv] at h
      cases g with
      | zero => simp [valueChanged] at h
      | succ k =>
        have hfind : List.find? (fun b => some b.value == some b0.value) st.buttons
            = some b0 := by
          rw [hb]
          exact List.find?_cons_of_pos rest (by simp)
        simp [valueChanged, afterSelect, updateSegmentView, hsv, hb, hfind, hcid] at h
        obtain ⟨h1, h2⟩ := h
        subst h1
        exact ⟨rfl, h2.symm⟩

/-- C7 witness: on the three-option fixture with no value and a segment
view attached, slot resolution checks option `a` and instructs the view
to show content `ca`. -/
theorem c7_default_with_view_witness :
    (c7St.value = none ∧ c7St.hasSegmentView = true ∧
     c7St.buttons = btnA :: [btnB, btnC] ∧ btnA.contentId = some "ca" ∧
     onSlottedItemsChange 9 c7St = some (c7St1, c7Acts)) ∧
    c7St1.value = some btnA.value ∧
    c7Acts = [Action.setContent "ca" true, Action.ionSelect (some btnA.value)] := by
  refine ⟨⟨by decide, by decide, by decide, by decide, by decide⟩, ?_⟩
  exact c7_default_with_view 9 c7St c7St1 btnA [btnB, btnC] "ca" c7Acts
    (by decide) (by decide) (by decide) (by decide) (by decide)


/-- C8 counterexample: with the destination's indicator sub-element
missing, `checkButton` skips the move entirely: the state is returned
unchanged — the value stays `a` instead of updating to the destination
value `b` — and no actions are produced. -/
theorem c8_missing_indicator_counterexample :
    indicatorOf c8St (ElRef.btn 1) = none ∧
    elValue c8St (ElRef.btn 1) = some "b" ∧
    checkButton 9 c8St (some (ElRef.btn 0)) (some (ElRef.btn 1)) = some (c8St, []) ∧
    ¬c8St.value = some "b" :=
  ⟨by decide, by decide, by decide, by decide⟩

/-- C8 amended: when the indicator sub-element is missing on either
endpoint of the move, `checkButton` skips the animation AND the value
update: the state is returned unchanged with no actions. -/
theorem c8_missing_indicator_skips_all (fuel : Nat) (st : SegmentState) (p c : ElRef)
    (hmiss : indicatorOf st p = none ∨ indicatorOf st c = none) :
    checkButton (fuel + 1) st (some p) (some c) = some (st, []) := by
  rcases hmiss with hm | hm
  · simp [checkButton, hm]
  · cases hip : indicatorOf st p with
    | none => simp [checkButton, hip]
    | some q => simp [checkButton, hip, hm]

/-- C8 amended witness: on the missing-middle-indicator fixture, moving
the indicator from option `a` to option `b` returns the state unchanged
with no actions. -/
theorem c8_missing_indicator_skips_all_witness :
    (indicatorOf c8St (ElRef.btn 0) = none ∨ indicatorOf c8St (ElRef.btn 1) = none) ∧
    checkButton 9 c8St (some (ElRef.btn 0)) (some (ElRef.btn 1)) = some (c8St, []) :=
  ⟨Or.inr (by decide),
    c8_missing_indicator_skips_all 8 c8St (ElRef.btn 0) (ElRef.btn 1) (Or.inr (by decide))⟩


/-- C9 counterexample: with a segment view attached, setting `disabled`
does NOT cascade to the option buttons: the buttons keep their own
flags, so not every button's `disabled` equals the group's. -/
theorem c9_cascade_counterexample :
    c9St.disabled = true ∧
    ((disabledChanged c9St).1.buttons.all fun b => b.disabled == c9St.disabled) = false :=
  ⟨by decide, by decide⟩

/-- C9 amended: the `disabled` watcher cascades the flag to every option
button only when no segment view is attached; with a segment view the
buttons are left unchanged and the flag is mirrored onto the view. -/
theorem c9_disabled_cascade (st : SegmentState) :
    (st.hasSegmentView = false →
      ∀ b ∈ (disabledChanged st).1.buttons, b.disabled = st.disabled) ∧
    (st.hasSegmentView = true →
      (disabledChanged st).1.buttons = st.buttons ∧
      (disabledChanged st).1.segmentViewDisabled = st.disabled) := by
  constructor
  · intro hsv b hb
    simp [disabledChanged, hsv] at hb
    obtain ⟨x, -, hfx⟩ := hb
    rw [← hfx]
  · intro hsv
    constructor <;> simp [disabledChanged, hsv]

/-- C9 amended witness: with a view attached the buttons of the disabled
fixture stay untouched and the view is disabled; without a view the
first option of the disabled fixture carries the cascaded flag. -/
theorem c9_disabled_cascade_witness :
    (c9St.hasSegmentView = true ∧
     (disabledChanged c9St).1.buttons = c9St.buttons ∧
     (disabledChanged c9St).1.segmentViewDisabled = c9St.disabled) ∧
    (c9StNoView.hasSegmentView = false ∧
     { btnA with disabled := true } ∈ (disabledChanged c9StNoView).1.buttons ∧
     ({ btnA with disabled := true } : Button).disabled = c9StNoView.disabled) := by
  refine ⟨⟨by decide, ?_, ?_⟩, by decide, by decide, ?_⟩
  · exact ((c9_disabled_cascade c9St).2 (by decide)).1
  · exact ((c9_disabled_cascade c9St).2 (by decide)).2
  · exact (c9_disabled_cascade c9StNoView).1 (by decide) { btnA with disabled := true }
      (by decide)


theorem jsFindIndex_cons (p : α → Bool) (a : α) (as : List α) :
    jsFindIndex p (a :: as) =
      if p a then 0
      else if jsFindIndex p as = -1 then -1 else jsFindIndex p as + 1 := rfl

theorem jsGet_zero (l : List α) : jsGet l 0 = l.head? := by
  cases l <;> simp [jsGet]

theorem jsGet_length (l : List α) : jsGet l (l.length : Int) = none := by
  rw [jsGet, if_pos (Int.ofNat_nonneg _), Int.toNat_ofNat]
  exact List.getElem?_eq_none (le_refl _)

theorem jsGet_neg_one (l : List α) : jsGet l (-1) = none := by
  simp [jsGet]

theorem jsGet_last (l : List α) : jsGet l ((l.length : Int) - 1) = l.getLast? := by
  cases l with
  | nil => simp [jsGet]
  | cons a as =>
    rw [jsGet, if_pos (by simp only [List.length_cons]; omega)]
    have ht : (((a :: as).length : Int) - 1).toNat = (a :: as).length - 1 := by
      simp only [List.length_cons]
      omega
    rw [ht, ← List.getLast?_eq_getElem?]

/-- The positions stored in `enabledButtons` are pairwise distinct: they
form a sublist of `range buttons.length`. -/
theorem enabledButtons_keys_nodup (st : SegmentState) :
    ((enabledButtons st).map Prod.fst).Nodup := by
  have hsub : List.Sublist ((enabledButtons st).map Prod.fst)
      ((List.enum st.buttons).map Prod.fst) :=
    (List.filter_sublist _).map Prod.fst
  rw [List.enum_map_fst] at hsub
  exact hsub.nodup (List.nodup_range _)

/-- `findIndex` against the key of the last entry of a key-nodup list
lands on the last position. -/
theorem jsFindIndex_last_key {l : List (Nat × Button)} {q : Nat × Button}
    (hnd : (l.map Prod.fst).Nodup) (hl : l.getLast? = some q) :
    jsFindIndex (fun p => some q.1 == some p.1) l = (l.length : Int) - 1 := by
  induction l with
  | nil => simp at hl
  | cons a as ih =>
    cases as with
    | nil =>
      have ha : a = q := by simpa using hl
      subst ha
      simp [jsFindIndex_cons]
    | cons b bs =>
      rw [List.getLast?_cons_cons] at hl
      have hnd' : ((b :: bs).map Prod.fst).Nodup :=
        (List.nodup_cons.mp (by simpa using hnd)).2
      have hmem : q ∈ b :: bs := List.mem_of_mem_getLast? (Option.mem_def.mpr hl)
      have hkey : q.1 ∈ (b :: bs).map Prod.fst := List.mem_map.mpr ⟨q, hmem, rfl⟩
      have hqa : q.1 ≠ a.1 :=
        fun he => (List.nodup_cons.mp (by simpa using hnd)).1 (he ▸ hkey)
      have hne : (fun p => some q.1 == some p.1) a = false := by simp [hqa]
      have hrec := ih hnd' hl
      rw [jsFindIndex_cons, hrec]
      have hlen : ¬(((b :: bs).length : Int) - 1 = -1) := by
        simp only [List.length_cons]
        omega
      rw [if_neg (by simp [hqa]), if_neg hlen]
      simp only [List.length_cons]
      omega

/-- `findIndex` against the key of the head entry lands on position 0. -/
theorem jsFindIndex_head_key {l : List (Nat × Button)} {q : Nat × Button}
    (hl : l.head? = some q) :
    jsFindIndex (fun p => some q.1 == some p.1) l = 0 := by
  cases l with
  | nil => simp at hl
  | cons a as =>
    have ha : a = q := by simpa using hl
    subst ha
    rw [jsFindIndex_cons, if_pos (by simp)]

/-- C10: keyboard arrow navigation wraps around the ends among the
non-disabled options: `next` from the last enabled option resolves to
the first enabled option, and `previous` from the first enabled option
resolves to the last enabled option. -/
theorem c10_keyboard_wrap (st : SegmentState) (f l : Nat × Button)
    (hf : (enabledButtons st).head? = some f)
    (hl : (enabledButtons st).getLast? = some l) :
    getSegmentButton st (some l.1) Selector.next = some f ∧
    getSegmentButton st (some f.1) Selector.previous = some l := by
  have hnd := enabledButtons_keys_nodup st
  constructor
  · simp only [getSegmentButton]
    rw [jsFindIndex_last_key hnd hl]
    have h1 : ((enabledButtons st).length : Int) - 1 + 1 = ((enabledButtons st).length : Int) :=
      by ring
    rw [h1, jsGet_length]
    simp [Option.orElse, jsGet_zero, hf]
  · simp only [getSegmentButton]
    rw [jsFindIndex_head_key hf]
    have h1 : (0 : Int) - 1 = -1 := by ring
    rw [h1, jsGet_neg_one]
    simp [Option.orElse, jsGet_last, hl]

/-- C10 witness: in the five-option fixture with disabled end options,
`next` from the last enabled option (position 3) wraps to the first
enabled option (position 1) and `previous` from position 1 wraps back to
position 3. -/
theorem c10_keyboard_wrap_witness :
    ((enabledButtons kbSt).head? = some (1, btnK "2" false) ∧
     (enabledButtons kbSt).getLast? = some (3, btnK "4" false)) ∧
    getSegmentButton kbSt (some 3) Selector.next = some (1, btnK "2" false) ∧
    getSegmentButton kbSt (some 1) Selector.previous = some (3, btnK "4" false) := by
  refine ⟨⟨by decide, by decide⟩, ?_⟩
  exact c10_keyboard_wrap kbSt (1, btnK "2" false) (3, btnK "4" false) (by decide) (by decide)

end Segment
